import Mathlib

/-
Verification of the TXT-to-CSV normalization script (src/TXT_to_CSV_script.py).

The script streams a delimited text file line by line, splits each line on a
caller-confirmed separator pattern, pads or truncates the field list to the
column count, substitutes the NULL sentinel for empty fields, normalizes
designated date columns to ISO-8601, and writes CSV records.

Shallow embedding conventions:
  - Python strings are Lean `String`s; character-level operations work on
    `String.data : List Char`.  ASCII is assumed for whitespace, case folding
    and digits (the script's data paths only exercise ASCII).
  - The compiled separator regex is embedded as an opaque splitting function
    `String → List String`, exactly the shape `_process` consumes it in
    (it only ever calls `sep_regex.split`).
  - `datetime.date` construction and `isoformat` are embedded by explicit
    calendar validation and zero-padded formatting.
  - `main`'s control flow (argument check, source acquisition, pattern
    compilation, column entry, the try/finally around `_process`) is embedded
    as a function from the run's configuration to a run result recording the
    exit path, whether a temporary download was acquired, whether it remains
    after the run, how many times the pattern was compiled, and whether any
    record was written.
-/

namespace TxtToCsv

/-- ASCII model of Python `str.isspace` characters, as used by `str.strip()`. -/
def pyIsSpace (c : Char) : Bool :=
  c = ' ' || c = '\t' || c = '\n' || c = '\r' || c = '\x0b' || c = '\x0c'

/-- Python `str.strip()` on a character list: drop whitespace from both ends. -/
def pyStripList (l : List Char) : List Char :=
  ((l.dropWhile pyIsSpace).reverse.dropWhile pyIsSpace).reverse

/-- Python `str.strip()` on strings. -/
def pyStrip (s : String) : String :=
  String.mk (pyStripList s.data)

/-- Python `line.rstrip('\n')`: drop every trailing newline character. -/
def pyRstripNl (s : String) : String :=
  String.mk (s.data.reverse.dropWhile (fun c => c = '\n')).reverse

/-- Python `str.lower()` (ASCII model). -/
def pyLower (s : String) : String :=
  String.mk (s.data.map Char.toLower)

/-- Python `str.count` for a single-character needle: number of occurrences. -/
def pyCount (s : String) (c : Char) : Nat :=
  s.data.count c

/-- Numeric value of an ASCII digit. -/
def digitVal (c : Char) : Nat :=
  c.toNat - '0'.toNat

/-- Parser for the tail of a Python integer literal body: digits with single
underscores allowed between digits (as accepted by `int()` since Python 3.6).
`acc` is the value of the digits consumed so far. -/
def digitsTail (acc : Nat) : List Char → Option Nat
  | [] => some acc
  | '_' :: c :: rest =>
      if c.isDigit then digitsTail (acc * 10 + digitVal c) rest else none
  | c :: rest =>
      if c.isDigit then digitsTail (acc * 10 + digitVal c) rest else none

/-- Parser for a nonempty run of digits with optional single underscores
between them (the unsigned body of a Python `int()` argument). -/
def parseUDigits : List Char → Option Nat
  | [] => none
  | c :: rest => if c.isDigit then digitsTail (digitVal c) rest else none

/-- Python `int(s)` on a character list (ASCII model): strip whitespace,
accept an optional sign followed by digits with optional single underscores;
anything else raises `ValueError`, embedded as `none`. -/
def pyIntCore (l : List Char) : Option Int :=
  match pyStripList l with
  | '+' :: rest => (parseUDigits rest).map Int.ofNat
  | '-' :: rest => (parseUDigits rest).map (fun n => -(n : Int))
  | rest => (parseUDigits rest).map Int.ofNat

/-- `NULL = r'\N'` (line 25): the PostgreSQL NULL sentinel. -/
def NULL : String := "\\N"

/-- `COMMON_SEPARATORS = ['|', ',', ';', '\t']` (line 28).  All candidates are
single characters, so they are embedded as `Char`s.  (The guard
`sep if sep != '\\t' else '\t'` on line 84 is dead: no candidate equals the
two-character string backslash-t, so `count(sep)` is always used.) -/
def COMMON_SEPARATORS : List Char := ['|', ',', ';', '\t']

/-- Gregorian leap-year test, as implemented by `datetime.date`. -/
def isLeap (y : Nat) : Bool :=
  (y % 4 == 0 && y % 100 != 0) || y % 400 == 0

/-- Days in a month of the proleptic Gregorian calendar (`datetime.date`). -/
def daysInMonth (y m : Nat) : Nat :=
  if m == 2 then (if isLeap y then 29 else 28)
  else if m == 4 || m == 6 || m == 9 || m == 11 then 30
  else 31

/-- Validity of `datetime.date(y, m, d)`: `MINYEAR = 1 ≤ y ≤ 9999 = MAXYEAR`,
`1 ≤ m ≤ 12`, `1 ≤ d ≤` days in the month; otherwise the constructor raises. -/
def validDate (y m d : Int) : Bool :=
  decide (1 ≤ y) && decide (y ≤ 9999) && decide (1 ≤ m) && decide (m ≤ 12) &&
  decide (1 ≤ d) && decide (d ≤ (daysInMonth y.toNat m.toNat : Int))

/-- Decimal rendering of a natural number, zero-padded to width `w`. -/
def padNum (w n : Nat) : String :=
  String.mk (List.replicate (w - (Nat.repr n).length) '0' ++ (Nat.repr n).data)

/-- `datetime.date(y, m, d).isoformat()`: `YYYY-MM-DD` with zero padding. -/
def isoFormat (y m d : Nat) : String :=
  padNum 4 y ++ "-" ++ padNum 2 m ++ "-" ++ padNum 2 d

/-- `_safe_iso` (lines 30-38): strip the raw string, require exactly three
dot-separated components `d, m, y` with `len(y) == 4`, convert with `int()`
and build `datetime.date(int(y), int(m), int(d))`; on success return its
`isoformat()`, and on any failure (wrong component count, wrong year length,
unparseable integer, invalid calendar date) return `NULL`. -/
def _safe_iso (raw : String) : String :=
  match (pyStripList raw.data).splitOn '.' with
  | [d, m, y] =>
      if y.length = 4 then
        match pyIntCore y, pyIntCore m, pyIntCore d with
        | some yi, some mi, some di =>
            if validDate yi mi di then isoFormat yi.toNat mi.toNat di.toNat
            else NULL
        | _, _, _ => NULL
      else NULL
  | _ => NULL

example : _safe_iso "05.03.2020" = "2020-03-05" := by decide

example : _safe_iso "31.02.2020" = NULL := by decide

example : _safe_iso "2020-03-05" = NULL := by decide

example : _safe_iso NULL = NULL := by decide

example : _safe_iso " 29.02.2020 " = "2020-02-29" := by decide

example : _safe_iso "29.02.2021" = NULL := by decide

example : _safe_iso "1.1.1" = NULL := by decide

example : pyIntCore "0_1".data = some 1 := by decide

example : pyIntCore "-12".data = some (-12) := by decide

example : pyIntCore "1_".data = none := by decide

/-- The candidate/count table of `_guess_separator` (line 84):
`counts = ..sep: first_line.count(sep)..` in declaration order. -/
def sepCounts (line : String) : List (Char × Nat) :=
  COMMON_SEPARATORS.map (fun c => (c, pyCount line c))

/-- Python `max(items, key=lambda x: x[1])` over a nonempty item list given as
head and tail: keep the current best, replacing it only on a strictly greater
key, so the first maximal item wins ties. -/
def pyMaxBySnd (p : Char × Nat) (rest : List (Char × Nat)) : Char × Nat :=
  rest.foldl (fun best q => if q.2 > best.2 then q else best) p

/-- `_guess_separator` (lines 83-86): count each candidate in the sample line
and return the candidate with the maximum count (`max` over the dict items,
which iterate in declaration order).  The `[] => '|'` arm is unreachable:
`COMMON_SEPARATORS` is nonempty. -/
def _guess_separator (line : String) : Char :=
  match sepCounts line with
  | [] => '|'
  | p :: rest => (pyMaxBySnd p rest).1

example : _guess_separator "a|b|c" = '|' := by decide

example : _guess_separator "abc" = '|' := by decide

example : _guess_separator "" = '|' := by decide

example : _guess_separator "a;b,c;d" = ';' := by decide

example : _guess_separator "a,b;c" = ',' := by decide

/-- `date_idx` membership (line 92): position `i` is a date column when the
lower-cased column name at `i` is `birthday` or `date`. -/
def isDateIdx (columns : List String) (i : Nat) : Bool :=
  match columns[i]? with
  | some c => pyLower c == "birthday" || pyLower c == "date"
  | none => false

/-- Line 99-100 of `_process`: split the line (end-of-line newlines stripped)
with the compiled pattern, then `islice(fields + [\x27\x27]*len(columns), len(columns))`:
right-pad with empty strings and truncate to the column count. -/
def paddedFields (split : String → List String) (columns : List String)
    (line : String) : List String :=
  (split (pyRstripNl line) ++ List.replicate columns.length "").take columns.length

/-- Line 101 of `_process`: `f.strip() if f.strip() else NULL` — trim the
field and substitute the NULL sentinel when the trimmed value is empty. -/
def normalizeField (f : String) : String :=
  if pyStrip f = "" then NULL else pyStrip f

/-- Lines 102-103 of `_process`: `for idx in date_idx: fields[idx] =
_safe_iso(fields[idx])`.  The set's members are distinct indices and the
updates are independent, so the loop is embedded as a positional rewrite:
`applyDatesFrom columns k l` rewrites element `i` of `l` when `k + i` is a
date column. -/
def applyDatesFrom (columns : List String) : Nat → List String → List String
  | _, [] => []
  | i, f :: rest =>
      (if isDateIdx columns i then _safe_iso f else f) ::
        applyDatesFrom columns (i + 1) rest

/-- The per-line body of `_process` (lines 99-103): split, pad/truncate,
NULL-substitute, then normalize date columns. -/
def _process_line (split : String → List String) (columns : List String)
    (line : String) : List String :=
  applyDatesFrom columns 0 ((paddedFields split columns line).map normalizeField)

/-- The per-field result at position `i`: NULL substitution followed, on date
columns, by date normalization (the composite effect of lines 101-103 on one
field). -/
def transformField (columns : List String) (i : Nat) (f : String) : String :=
  if isDateIdx columns i then _safe_iso (normalizeField f) else normalizeField f

/-- The data-record loop of `_process` (lines 97-104): one output record per
input line, in input order. -/
def writeRecords (split : String → List String) (columns : List String) :
    List String → List (List String)
  | [] => []
  | line :: rest =>
      _process_line split columns line :: writeRecords split columns rest

/-- `_process` (lines 88-104) at the record level: write the header record
`columns` (line 95), then stream the input lines through the per-line
transform.  The compiled separator pattern enters once, as the `split`
parameter, and is reused for every line. -/
def _process (split : String → List String) (columns : List String)
    (lines : List String) : List (List String) :=
  columns :: writeRecords split columns lines

example :
    _process (fun s => (s.data.splitOn '|').map String.mk)
      ["id", "name", "birthday"] ["1|Alice|01.01.1990", "2|Bob|"] =
    [["id", "name", "birthday"], ["1", "Alice", "1990-01-01"],
     ["2", "Bob", NULL]] := by
  decide

/-- Configuration of one run of `main` (lines 107-135): the externally
determined outcomes of each step, in the order the code reaches them. -/
structure MainConfig where
  /-- Number of command-line arguments after the script name
  (`len(sys.argv) - 1`). -/
  argCount : Nat
  /-- `_get_source` resolves the input (existing file, or a URL that
  downloads); otherwise it exits at line 81. -/
  resolvable : Bool
  /-- The source is a URL, so `_get_source` downloads it to a temporary file
  (lines 75-80) whose cleanup deletes it. -/
  isUrl : Bool
  /-- `re.compile` of the separator expression succeeds (line 124). -/
  sepCompiles : Bool
  /-- The entered column list is nonempty after filtering (lines 127-129). -/
  columnsNonempty : Bool
  /-- `_process` runs to completion without an I/O error (line 133). -/
  processOk : Bool
deriving DecidableEq

/-- The exit path a run of `main` takes. -/
inductive ExitKind where
  /-- `sys.exit` with the usage message (lines 109-110). -/
  | usageError
  /-- `sys.exit` in `_get_source` (line 81): neither a file nor a URL. -/
  | sourceNotFound
  /-- `re.compile` raised at line 124 and the error propagated. -/
  | invalidPattern
  /-- `sys.exit` at line 129: no column names entered. -/
  | emptyColumns
  /-- `_process` raised an I/O error inside the `try` (line 133). -/
  | ioError
  /-- Normal completion. -/
  | success
deriving DecidableEq

/-- Observable outcome of one run of `main`. -/
structure RunResult where
  /-- Which exit path the run took. -/
  exitKind : ExitKind
  /-- A temporary download was acquired during the run. -/
  tempAcquired : Bool
  /-- The temporary download still exists after the run ends. -/
  tempRemains : Bool
  /-- How many times the separator pattern was compiled. -/
  compileCount : Nat
  /-- The run reached `_process` and wrote records. -/
  recordsWritten : Bool
deriving DecidableEq

/-- Control flow of `main` (lines 107-135).  The argument-count check
(line 109) runs first; `_get_source` (line 113) then either exits, returns a
plain file, or downloads a URL to a temporary file.  The separator expression
is compiled once at line 124; `sys.exit` for an empty column list is at
line 129.  Only the `_process` call (line 133) is inside `try/finally`
(lines 132-135), so `source.cleanup()` runs exactly when `_process` was
entered — error exits at lines 124 and 129 happen after acquisition but
outside the `try`, leaving a downloaded temporary file in place. -/
def main_run (cfg : MainConfig) : RunResult :=
  if cfg.argCount > 1 then
    ⟨.usageError, false, false, 0, false⟩
  else if !cfg.resolvable then
    ⟨.sourceNotFound, false, false, 0, false⟩
  else if !cfg.sepCompiles then
    ⟨.invalidPattern, cfg.isUrl, cfg.isUrl, 1, false⟩
  else if !cfg.columnsNonempty then
    ⟨.emptyColumns, cfg.isUrl, cfg.isUrl, 1, false⟩
  else if cfg.processOk then
    ⟨.success, cfg.isUrl, false, 1, true⟩
  else
    ⟨.ioError, cfg.isUrl, false, 1, false⟩

example :
    main_run ⟨1, true, true, false, true, true⟩ =
      ⟨.invalidPattern, true, true, 1, false⟩ := by decide

example :
    main_run ⟨1, true, true, true, true, false⟩ =
      ⟨.ioError, true, false, 1, false⟩ := by decide

theorem applyDatesFrom_length (columns : List String) :
    ∀ (k : Nat) (l : List String), (applyDatesFrom columns k l).length = l.length
  | _, [] => rfl
  | k, _ :: rest => by
      simp [applyDatesFrom, applyDatesFrom_length columns (k + 1) rest]

theorem applyDatesFrom_getElem? (columns : List String) :
    ∀ (l : List String) (k i : Nat),
      (applyDatesFrom columns k l)[i]? =
        (l[i]?).map (fun f => if isDateIdx columns (k + i) then _safe_iso f else f)
  | [], _, _ => by simp [applyDatesFrom]
  | f :: rest, k, 0 => by simp [applyDatesFrom]
  | f :: rest, k, i + 1 => by
      have h := applyDatesFrom_getElem? columns rest (k + 1) i
      simpa [applyDatesFrom, Nat.add_assoc, Nat.add_comm 1 i] using h

theorem paddedFields_length (split : String → List String)
    (columns : List String) (line : String) :
    (paddedFields split columns line).length = columns.length := by
  simp [paddedFields]

theorem paddedFields_getElem?_lt (split : String → List String)
    (columns : List String) (line : String) (i : Nat)
    (h1 : i < (split (pyRstripNl line)).length) (h2 : i < columns.length) :
    (paddedFields split columns line)[i]? = (split (pyRstripNl line))[i]? := by
  simp [paddedFields, List.getElem?_take, List.getElem?_append, h1, h2,
    List.getElem_append]

theorem paddedFields_getElem?_pad (split : String → List String)
    (columns : List String) (line : String) (i : Nat)
    (h1 : (split (pyRstripNl line)).length ≤ i) (h2 : i < columns.length) :
    (paddedFields split columns line)[i]? = some "" := by
  have h3 : ¬ i < (split (pyRstripNl line)).length := Nat.not_lt.mpr h1
  have h4 : i - (split (pyRstripNl line)).length < columns.length :=
    Nat.lt_of_le_of_lt (Nat.sub_le i _) h2
  simp [paddedFields, List.getElem?_take, List.getElem?_append, h2, h3,
    List.getElem?_replicate, h4, List.getElem_append, List.getElem_replicate]

theorem process_line_length (split : String → List String)
    (columns : List String) (line : String) :
    (_process_line split columns line).length = columns.length := by
  simp [_process_line, applyDatesFrom_length, paddedFields_length]

theorem process_line_getElem? (split : String → List String)
    (columns : List String) (line : String) (i : Nat) :
    (_process_line split columns line)[i]? =
      ((paddedFields split columns line)[i]?).map (transformField columns i) := by
  rw [_process_line, applyDatesFrom_getElem?, List.getElem?_map,
    Option.map_map]
  rcases h : (paddedFields split columns line)[i]? with _ | f
  · rfl
  · rcases hd : isDateIdx columns i with _ | _ <;>
      simp [transformField, hd, Function.comp]

theorem safe_iso_NULL : _safe_iso NULL = NULL := by decide

theorem normalizeField_empty_trim (f : String) (h : pyStrip f = "") :
    normalizeField f = NULL := by
  simp [normalizeField, h]

theorem transformField_null (columns : List String) (i : Nat) (f : String)
    (h : pyStrip f = "") : transformField columns i f = NULL := by
  simp only [transformField, normalizeField_empty_trim f h]
  rcases hd : isDateIdx columns i with _ | _ <;> simp [hd, safe_iso_NULL]

theorem writeRecords_eq_map (split : String → List String)
    (columns : List String) :
    ∀ lines : List String,
      writeRecords split columns lines = lines.map (_process_line split columns)
  | [] => rfl
  | _ :: rest => by
      simp [writeRecords, writeRecords_eq_map split columns rest]

theorem guess_closed (line : String) :
    _guess_separator line =
      (if pyCount line '\t' >
            (if pyCount line ';' >
                  (if pyCount line ',' > pyCount line '|' then pyCount line ','
                   else pyCount line '|')
             then pyCount line ';'
             else if pyCount line ',' > pyCount line '|' then pyCount line ','
                  else pyCount line '|')
       then '\t'
       else if pyCount line ';' >
                 (if pyCount line ',' > pyCount line '|' then pyCount line ','
                  else pyCount line '|')
            then ';'
       else if pyCount line ',' > pyCount line '|' then ','
       else '|') := by
  simp only [_guess_separator, sepCounts, COMMON_SEPARATORS, List.map,
    pyMaxBySnd, List.foldl]
  split_ifs <;> simp_all

theorem guess_cases (line : String) :
    (_guess_separator line = '|' ∧ pyCount line ',' ≤ pyCount line '|' ∧
      pyCount line ';' ≤ pyCount line '|' ∧ pyCount line '\t' ≤ pyCount line '|')
  ∨ (_guess_separator line = ',' ∧ pyCount line '|' < pyCount line ',' ∧
      pyCount line ';' ≤ pyCount line ',' ∧ pyCount line '\t' ≤ pyCount line ',')
  ∨ (_guess_separator line = ';' ∧ pyCount line '|' < pyCount line ';' ∧
      pyCount line ',' < pyCount line ';' ∧ pyCount line '\t' ≤ pyCount line ';')
  ∨ (_guess_separator line = '\t' ∧ pyCount line '|' < pyCount line '\t' ∧
      pyCount line ',' < pyCount line '\t' ∧ pyCount line ';' < pyCount line '\t') := by
  rw [guess_closed]
  split_ifs <;>
    first
      | exact Or.inl (by refine ⟨rfl, ?_, ?_, ?_⟩ <;> omega)
      | exact Or.inr (Or.inl (by refine ⟨rfl, ?_, ?_, ?_⟩ <;> omega))
      | exact Or.inr (Or.inr (Or.inl (by refine ⟨rfl, ?_, ?_, ?_⟩ <;> omega)))
      | exact Or.inr (Or.inr (Or.inr (by refine ⟨rfl, ?_, ?_, ?_⟩ <;> omega)))

/-- Claim C6: for every sample line in which one candidate from the fixed set
of separators has a strictly higher occurrence count than every other
candidate, `_guess_separator` returns that candidate. -/
theorem separator_majority (line : String) (c : Char)
    (hc : c ∈ COMMON_SEPARATORS)
    (h : ∀ c', c' ∈ COMMON_SEPARATORS → c' ≠ c →
      pyCount line c' < pyCount line c) :
    _guess_separator line = c := by
  simp only [COMMON_SEPARATORS] at hc
  fin_cases hc
  · have h1 := h ',' (by decide) (by decide)
    have h2 := h ';' (by decide) (by decide)
    have h3 := h '\t' (by decide) (by decide)
    rcases guess_cases line with ⟨hg, f1, f2, f3⟩ | ⟨hg, f1, f2, f3⟩ |
      ⟨hg, f1, f2, f3⟩ | ⟨hg, f1, f2, f3⟩ <;>
      first | exact hg | (exfalso; omega)
  · have h1 := h '|' (by decide) (by decide)
    have h2 := h ';' (by decide) (by decide)
    have h3 := h '\t' (by decide) (by decide)
    rcases guess_cases line with ⟨hg, f1, f2, f3⟩ | ⟨hg, f1, f2, f3⟩ |
      ⟨hg, f1, f2, f3⟩ | ⟨hg, f1, f2, f3⟩ <;>
      first | exact hg | (exfalso; omega)
  · have h1 := h '|' (by decide) (by decide)
    have h2 := h ',' (by decide) (by decide)
    have h3 := h '\t' (by decide) (by decide)
    rcases guess_cases line with ⟨hg, f1, f2, f3⟩ | ⟨hg, f1, f2, f3⟩ |
      ⟨hg, f1, f2, f3⟩ | ⟨hg, f1, f2, f3⟩ <;>
      first | exact hg | (exfalso; omega)
  · have h1 := h '|' (by decide) (by decide)
    have h2 := h ',' (by decide) (by decide)
    have h3 := h ';' (by decide) (by decide)
    rcases guess_cases line with ⟨hg, f1, f2, f3⟩ | ⟨hg, f1, f2, f3⟩ |
      ⟨hg, f1, f2, f3⟩ | ⟨hg, f1, f2, f3⟩ <;>
      first | exact hg | (exfalso; omega)

/-- Witness for C6: on the sample line `a|b|c` the vertical bar has the
strict majority, and the detector returns it. -/
theorem separator_majority_witness : _guess_separator "a|b|c" = '|' :=
  separator_majority "a|b|c" '|' (by decide) (by decide)

/-- Claim C7: on a line containing none of the candidates (all counts zero,
e.g. the empty line) `_guess_separator` returns the first candidate in
declaration order, the vertical bar; in general the returned candidate always
belongs to the candidate set, attains the maximum count, and on ties is the
candidate earliest in declaration order. -/
theorem separator_default_and_ties (line : String) :
    ((∀ c, c ∈ COMMON_SEPARATORS → pyCount line c = 0) →
        _guess_separator line = '|')
    ∧ _guess_separator line ∈ COMMON_SEPARATORS
    ∧ (∀ c, c ∈ COMMON_SEPARATORS →
        pyCount line c ≤ pyCount line (_guess_separator line))
    ∧ (∀ c, c ∈ COMMON_SEPARATORS →
        pyCount line c = pyCount line (_guess_separator line) →
        COMMON_SEPARATORS.indexOf (_guess_separator line) ≤
          COMMON_SEPARATORS.indexOf c) := by
  rcases guess_cases line with ⟨hg, f1, f2, f3⟩ | ⟨hg, f1, f2, f3⟩ |
    ⟨hg, f1, f2, f3⟩ | ⟨hg, f1, f2, f3⟩ <;> rw [hg] <;>
    refine ⟨?_, by decide, ?_, ?_⟩
  · exact fun _ => rfl
  · intro c hc
    simp only [COMMON_SEPARATORS] at hc
    fin_cases hc <;> omega
  · intro c hc _
    simp only [COMMON_SEPARATORS] at hc
    fin_cases hc <;> decide
  · intro hz
    have h1 := hz '|' (by decide)
    have h2 := hz ',' (by decide)
    exact absurd f1 (by omega)
  · intro c hc
    simp only [COMMON_SEPARATORS] at hc
    fin_cases hc <;> omega
  · intro c hc heq
    simp only [COMMON_SEPARATORS] at hc
    fin_cases hc <;> first | decide | (exfalso; omega)
  · intro hz
    have h1 := hz '|' (by decide)
    have h2 := hz ';' (by decide)
    exact absurd f1 (by omega)
  · intro c hc
    simp only [COMMON_SEPARATORS] at hc
    fin_cases hc <;> omega
  · intro c hc heq
    simp only [COMMON_SEPARATORS] at hc
    fin_cases hc <;> first | decide | (exfalso; omega)
  · intro hz
    have h1 := hz '|' (by decide)
    have h2 := hz '\t' (by decide)
    exact absurd f1 (by omega)
  · intro c hc
    simp only [COMMON_SEPARATORS] at hc
    fin_cases hc <;> omega
  · intro c hc heq
    simp only [COMMON_SEPARATORS] at hc
    fin_cases hc <;> first | decide | (exfalso; omega)

/-- Witness for C7: the line `abc` contains no candidate, and the detector
returns the default vertical bar. -/
theorem separator_default_and_ties_witness : _guess_separator "abc" = '|' :=
  (separator_default_and_ties "abc").1 (by decide)

/-- Claim C1: for every input line and every non-empty column specification
of length N the emitted record has exactly N fields; positions beyond the
split result are pad positions and carry the NULL sentinel, and when the
split produced at least N fields the record is the transform of the first N
split fields. -/
theorem record_length_invariant (split : String → List String)
    (columns : List String) (line : String) (hne : columns ≠ []) :
    (_process_line split columns line).length = columns.length
    ∧ (∀ i, (split (pyRstripNl line)).length ≤ i → i < columns.length →
        (_process_line split columns line)[i]? = some NULL)
    ∧ (∀ i, i < (split (pyRstripNl line)).length → i < columns.length →
        (_process_line split columns line)[i]? =
          ((split (pyRstripNl line))[i]?).map (transformField columns i)) := by
  refine ⟨process_line_length split columns line, ?_, ?_⟩
  · intro i h1 h2
    rw [process_line_getElem?,
      paddedFields_getElem?_pad split columns line i h1 h2]
    simp only [Option.map_some']
    rw [transformField_null columns i "" (by decide)]
  · intro i h1 h2
    rw [process_line_getElem?,
      paddedFields_getElem?_lt split columns line i h1 h2]

/-- Witness for C1: a split with three fields against a single-column
specification is truncated to exactly one field. -/
theorem record_length_invariant_witness :
    (_process_line (fun _ => ["a", "b", "c"]) ["x"] "").length = 1 := by
  have h :=
    (record_length_invariant (fun _ => ["a", "b", "c"]) ["x"] "" (by decide)).1
  exact h.trans (by decide)

/-- Claim C5: a record field is the NULL sentinel when the underlying
(padded) field is empty after trimming — even in date columns, since
normalizing NULL yields NULL — and a field that is non-empty after trimming
passes through as its trimmed value, except in date columns where date
normalization is applied to the trimmed value. -/
theorem empty_field_invariant (split : String → List String)
    (columns : List String) (line : String) (i : Nat) (f : String)
    (hf : (paddedFields split columns line)[i]? = some f) :
    (pyStrip f = "" → (_process_line split columns line)[i]? = some NULL)
    ∧ (pyStrip f ≠ "" → isDateIdx columns i = false →
        (_process_line split columns line)[i]? = some (pyStrip f))
    ∧ (pyStrip f ≠ "" → isDateIdx columns i = true →
        (_process_line split columns line)[i]? =
          some (_safe_iso (pyStrip f))) := by
  have hp := process_line_getElem? split columns line i
  rw [hf] at hp
  simp only [Option.map_some'] at hp
  refine ⟨?_, ?_, ?_⟩
  · intro he
    rw [hp, transformField_null columns i f he]
  · intro hne hd
    rw [hp]
    simp [transformField, hd, normalizeField, hne]
  · intro hne hd
    rw [hp]
    simp [transformField, hd, normalizeField, hne]

/-- Witness for C5: the field `" a "` in a non-date column is emitted as its
trimmed value `a`. -/
theorem empty_field_invariant_witness :
    (_process_line (fun _ => [" a "]) ["x"] "")[0]? = some "a" := by
  have h := (empty_field_invariant (fun _ => [" a "]) ["x"] "" 0 " a "
    (by decide)).2.1 (by decide) (by decide)
  exact h.trans (by decide)

/-- Claim C10: normalizing the NULL sentinel as a date yields the NULL
sentinel again, so a date-column field that is empty after trimming is
emitted as NULL, and a line all of whose split fields trim to empty (in
particular a blank line) is emitted as a record of exactly N NULL
sentinels. -/
theorem null_sentinel_date_blank :
    (_safe_iso NULL = NULL)
    ∧ (∀ (split : String → List String) (columns : List String)
        (line : String) (i : Nat) (f : String),
        (paddedFields split columns line)[i]? = some f →
        isDateIdx columns i = true → pyStrip f = "" →
        (_process_line split columns line)[i]? = some NULL)
    ∧ (∀ (split : String → List String) (columns : List String)
        (line : String), columns ≠ [] →
        (∀ f, f ∈ split (pyRstripNl line) → pyStrip f = "") →
        _process_line split columns line =
          List.replicate columns.length NULL) := by
  refine ⟨safe_iso_NULL, ?_, ?_⟩
  · intro split columns line i f hf _ he
    have hp := process_line_getElem? split columns line i
    rw [hf] at hp
    simp only [Option.map_some'] at hp
    rw [hp, transformField_null columns i f he]
  · intro split columns line _ hall
    apply List.ext_getElem?
    intro i
    by_cases hi : i < columns.length
    · rw [process_line_getElem?]
      rcases Nat.lt_or_ge i (split (pyRstripNl line)).length with h | h
      · rw [paddedFields_getElem?_lt split columns line i h hi]
        rcases hf : (split (pyRstripNl line))[i]? with _ | f
        · rw [List.getElem?_eq_none_iff] at hf
          omega
        · have hmem : f ∈ split (pyRstripNl line) := List.getElem?_mem hf
          simp only [Option.map_some']
          rw [transformField_null columns i f (hall f hmem)]
          simp [List.getElem?_replicate, hi]
      · rw [paddedFields_getElem?_pad split columns line i h hi]
        simp only [Option.map_some']
        rw [transformField_null columns i "" (by decide)]
        simp [List.getElem?_replicate, hi]
    · rw [List.getElem?_eq_none, List.getElem?_eq_none]
      · simp
        omega
      · rw [process_line_length]
        omega

/-- Witness for C10: a blank line against a two-column specification with a
date column is emitted as a record of two NULL sentinels. -/
theorem null_sentinel_date_blank_witness :
    _process_line (fun _ => [""]) ["id", "date"] "" = [NULL, NULL] := by
  have h := null_sentinel_date_blank.2.2 (fun _ => [""]) ["id", "date"] ""
    (by decide) (by decide)
  exact h.trans (by decide)

/-- Claim C8: `_process` emits the header record (the column specification)
first, then exactly one record per input line in input order: the output is
the header consed onto the per-line transforms, its length is the line count
plus one, and record i+1 is the transform of line i. -/
theorem record_per_line_in_order (split : String → List String)
    (columns : List String) (lines : List String) :
    _process split columns lines =
      columns :: lines.map (_process_line split columns)
    ∧ (_process split columns lines).length = lines.length + 1
    ∧ (_process split columns lines)[0]? = some columns
    ∧ ∀ i, (_process split columns lines)[i + 1]? =
        (lines[i]?).map (_process_line split columns) := by
  have he : _process split columns lines =
      columns :: lines.map (_process_line split columns) := by
    simp [_process, writeRecords_eq_map]
  refine ⟨he, ?_, ?_, ?_⟩
  · rw [he]
    simp
  · rw [he]
    simp
  · intro i
    rw [he]
    simp

/-- Claim C9: when the separator expression does not compile, the run
terminates on the invalid-pattern exit path with no record written; the
pattern is compiled exactly once on every run that reaches compilation, and
the one compiled splitter is reused for every line of `_process`. -/
theorem invalid_pattern_aborts (cfg : MainConfig) :
    ((main_run cfg).compileCount ≤ 1)
    ∧ (cfg.argCount ≤ 1 → cfg.resolvable = true → cfg.sepCompiles = false →
        (main_run cfg).exitKind = ExitKind.invalidPattern
        ∧ (main_run cfg).recordsWritten = false
        ∧ (main_run cfg).compileCount = 1)
    ∧ (∀ (split : String → List String) (columns lines : List String),
        _process split columns lines =
          columns :: lines.map (_process_line split columns)) := by
  refine ⟨?_, ?_, ?_⟩
  · unfold main_run
    split_ifs <;> simp
  · intro h1 h2 h3
    unfold main_run
    rw [if_neg (by omega), if_neg (by simp [h2]), if_pos (by simp [h3])]
    exact ⟨rfl, rfl, rfl⟩
  · intro split columns lines
    simp [_process, writeRecords_eq_map]

/-- Witness for C9: a run whose separator expression fails to compile exits
on the invalid-pattern path. -/
theorem invalid_pattern_aborts_witness :
    (main_run ⟨0, true, false, false, true, true⟩).exitKind =
      ExitKind.invalidPattern :=
  ((invalid_pattern_aborts ⟨0, true, false, false, true, true⟩).2.1
    (by decide) (by decide) (by decide)).1

/-- Counterexample to claim C2 as stated: a run that downloads a URL source
(acquiring a temporary file) and then fails to compile the separator
expression exits with the temporary file still on disk, because the error
exit at line 124 is outside the try/finally of lines 132-135. -/
theorem cleanup_counterexample :
    main_run ⟨1, true, true, false, true, true⟩ =
      ⟨ExitKind.invalidPattern, true, true, 1, false⟩ := by decide

/-- Claim C2 (amended): for every run that acquired a temporary resource and
reached the processing phase — the separator expression compiled and the
column list was non-empty — the temporary resource no longer exists after
the run ends, whether processing succeeded or failed. -/
theorem cleanup_after_processing (cfg : MainConfig)
    (h1 : cfg.sepCompiles = true) (h2 : cfg.columnsNonempty = true) :
    (main_run cfg).tempRemains = false := by
  unfold main_run
  split_ifs <;> simp_all

/-- Witness for C2 (amended): a URL run whose processing fails with an I/O
error still has its temporary download deleted. -/
theorem cleanup_after_processing_witness :
    (main_run ⟨1, true, true, true, true, false⟩).tempRemains = false :=
  cleanup_after_processing ⟨1, true, true, true, true, false⟩ rfl rfl

/-- Claim C3: `_safe_iso` maps a string whose stripped form has exactly three
dot-separated components, whose year component is exactly four characters,
and whose components parse as integers forming a valid calendar date, to
that date in ISO-8601 form; every other input maps to the NULL sentinel.
In particular `05.03.2020` maps to `2020-03-05`, while `31.02.2020` and
`2020-03-05` map to the NULL sentinel. -/
theorem date_normalizer_correct :
    (∀ (raw : String) (d m y : List Char),
        (pyStripList raw.data).splitOn '.' = [d, m, y] → y.length = 4 →
        ∀ yi mi di : Int, pyIntCore y = some yi → pyIntCore m = some mi →
          pyIntCore d = some di → validDate yi mi di = true →
          _safe_iso raw = isoFormat yi.toNat mi.toNat di.toNat)
    ∧ (∀ raw : String,
        (¬ ∃ d m y : List Char,
            (pyStripList raw.data).splitOn '.' = [d, m, y] ∧ y.length = 4
            ∧ ∃ yi mi di : Int, pyIntCore y = some yi ∧ pyIntCore m = some mi
              ∧ pyIntCore d = some di ∧ validDate yi mi di = true) →
        _safe_iso raw = NULL)
    ∧ _safe_iso "05.03.2020" = "2020-03-05"
    ∧ _safe_iso "31.02.2020" = NULL
    ∧ _safe_iso "2020-03-05" = NULL := by
  refine ⟨?_, ?_, by decide, by decide, by decide⟩
  · intro raw d m y hs hy yi mi di hyi hmi hdi hv
    simp [_safe_iso, hs, hy, hyi, hmi, hdi, hv]
  · intro raw hne
    rcases hs : (pyStripList raw.data).splitOn '.' with
      _ | ⟨d, _ | ⟨m, _ | ⟨y, _ | ⟨z, rest⟩⟩⟩⟩
    · simp [_safe_iso, hs]
    · simp [_safe_iso, hs]
    · simp [_safe_iso, hs]
    · by_cases hy : y.length = 4
      · rcases hyi : pyIntCore y with _ | yi
        · simp [_safe_iso, hs, hy, hyi]
        · rcases hmi : pyIntCore m with _ | mi
          · simp [_safe_iso, hs, hy, hyi, hmi]
          · rcases hdi : pyIntCore d with _ | di
            · simp [_safe_iso, hs, hy, hyi, hmi, hdi]
            · by_cases hv : validDate yi mi di = true
              · exact absurd
                  ⟨d, m, y, hs, hy, yi, mi, di, hyi, hmi, hdi, hv⟩ hne
              · simp [_safe_iso, hs, hy, hyi, hmi, hdi, hv]
      · simp [_safe_iso, hs, hy]
    · simp [_safe_iso, hs]

/-- Witness for C3: `05.03.2020` satisfies all the structural conditions and
is normalized to the ISO form of 5 March 2020. -/
theorem date_normalizer_correct_witness :
    _safe_iso "05.03.2020" = isoFormat 2020 3 5 :=
  date_normalizer_correct.1 "05.03.2020" ['0', '5'] ['0', '3']
    ['2', '0', '2', '0'] (by decide) (by decide) 2020 3 5 (by decide)
    (by decide) (by decide) (by decide)

/-- Claim C4: `_safe_iso` is a total function whose result on every input
string is either the NULL sentinel or the ISO form of a valid calendar date;
the embedding is a total Lean function, so no input can raise. -/
theorem date_normalizer_total (raw : String) :
    _safe_iso raw = NULL ∨
      ∃ y m d : Int, validDate y m d = true ∧
        _safe_iso raw = isoFormat y.toNat m.toNat d.toNat := by
  rcases hs : (pyStripList raw.data).splitOn '.' with
    _ | ⟨d, _ | ⟨m, _ | ⟨y, _ | ⟨z, rest⟩⟩⟩⟩
  · exact Or.inl (by simp [_safe_iso, hs])
  · exact Or.inl (by simp [_safe_iso, hs])
  · exact Or.inl (by simp [_safe_iso, hs])
  · by_cases hy : y.length = 4
    · rcases hyi : pyIntCore y with _ | yi
      · exact Or.inl (by simp [_safe_iso, hs, hy, hyi])
      · rcases hmi : pyIntCore m with _ | mi
        · exact Or.inl (by simp [_safe_iso, hs, hy, hyi, hmi])
        · rcases hdi : pyIntCore d with _ | di
          · exact Or.inl (by simp [_safe_iso, hs, hy, hyi, hmi, hdi])
          · by_cases hv : validDate yi mi di = true
            · exact Or.inr ⟨yi, mi, di, hv,
                by simp [_safe_iso, hs, hy, hyi, hmi, hdi, hv]⟩
            · exact Or.inl (by simp [_safe_iso, hs, hy, hyi, hmi, hdi, hv])
    · exact Or.inl (by simp [_safe_iso, hs, hy])
  · exact Or.inl (by simp [_safe_iso, hs])

end TxtToCsv
